import Mathlib

/-!
Verification of the OpenGenePool sequence coordinate and edit-adjustment
model.  The edit engine itself (the `applyInsertDeleteToRange` primitive of
`SequenceEditor.vue` and the `Range`/`Span` classes of `utils/dna.js`) is not
shipped with the corpus; only its test suites
(`SequenceEditor.annotations.test.js`, `SequenceEditor.backend.test.js`), the
annotation wrapper (`utils/annotation.js`) and the layout helpers
(`utils/layout.js`) are.  The engine is therefore reconstructed from the
specification, with every branch cross-checked against the concrete
expectations pinned by the in-repo tests; where the two disagree (the spec
policy table places collapsed and left-truncated ranges at
`editStart + insertedLength`, while the spec Scenario D and all the tests
place them at `editStart`), the tests are followed and the discrepancy is
recorded against the corresponding claims.
-/

namespace OpenGenePool

/-- A half-open coordinate range `[start, stop)` in fenced (0-based)
coordinates.  Mirrors the `Range` of `utils/dna.js`; `end` is a Lean keyword,
so the field is called `stop`.  Orientation and indefinite-boundary flags
carried by the source class play no part in coordinate adjustment and are
omitted. -/
structure Range where
  start : Int
  stop : Int
deriving DecidableEq, Repr

/-- Modelled from the spec: `applyInsertDeleteToRange(range, editStart,
removedLength, insertedLength)` of the edit-adjustment engine, which is not
part of the shipped sources.  The branch structure follows the policy table
of spec section 4.3; the result positions of the contained-collapse and
left-overlap branches follow spec Scenario D and the pinned expectations of
`SequenceEditor.annotations.test.js` (collapse to `editStart`, truncate to
`editStart`), which override the policy table rows that say
`editStart + insertedLength`.  The pure-insertion special case (shift a
boundary exactly when it lies strictly right of the insertion point) is as
the spec and the insertion tests describe. -/
def applyInsertDeleteToRange (r : Range) (editStart removed inserted : Int) : Range :=
  let delta := inserted - removed
  let editEnd := editStart + removed
  if removed = 0 then
    { start := if editStart < r.start then r.start + delta else r.start
      stop := if editStart < r.stop then r.stop + delta else r.stop }
  else if r.stop ≤ editStart then r
  else if editEnd ≤ r.start then { start := r.start + delta, stop := r.stop + delta }
  else if editStart ≤ r.start ∧ r.stop ≤ editEnd then { start := editStart, stop := editStart }
  else if r.start < editStart ∧ r.stop ≤ editEnd then { start := r.start, stop := editStart }
  else if editStart ≤ r.start ∧ editEnd < r.stop then
    { start := editStart + inserted, stop := r.stop + delta }
  else { start := r.start, stop := r.stop + delta }

/-- Length `stop - start` of a single range. -/
def rangeLength (r : Range) : Int := r.stop - r.start

/-- Total length of a list of ranges (`Span.totalLength` of the source). -/
def totalLen (rs : List Range) : Int := rs.foldl (fun a r => a + rangeLength r) 0

/-
Sanity anchors: the insertion expectations pinned by
`SequenceEditor.annotations.test.js`.
-/

example : applyInsertDeleteToRange ⟨20, 40⟩ 25 0 2 = ⟨20, 42⟩ := by decide
example : applyInsertDeleteToRange ⟨10, 30⟩ 10 0 3 = ⟨10, 33⟩ := by decide
example : applyInsertDeleteToRange ⟨10, 30⟩ 30 0 3 = ⟨10, 30⟩ := by decide
example : applyInsertDeleteToRange ⟨230, 247⟩ 231 0 4 = ⟨230, 251⟩ := by decide
example : applyInsertDeleteToRange ⟨100, 150⟩ 99 0 3 = ⟨103, 153⟩ := by decide

/-
Sanity anchors: the replace expectations pinned by
`SequenceEditor.annotations.test.js` (selection `30..50` replaced by five
characters, and the other replace scenarios).
-/

example : applyInsertDeleteToRange ⟨50, 70⟩ 20 10 4 = ⟨44, 64⟩ := by decide
example : applyInsertDeleteToRange ⟨10, 50⟩ 20 10 2 = ⟨10, 42⟩ := by decide
example : applyInsertDeleteToRange ⟨10, 50⟩ 20 5 15 = ⟨10, 60⟩ := by decide
example : applyInsertDeleteToRange ⟨25, 35⟩ 20 20 3 = ⟨20, 20⟩ := by decide
example : applyInsertDeleteToRange ⟨15, 35⟩ 30 20 4 = ⟨15, 30⟩ := by decide
example : applyInsertDeleteToRange ⟨25, 45⟩ 20 10 4 = ⟨24, 39⟩ := by decide
example : applyInsertDeleteToRange ⟨35, 45⟩ 30 20 5 = ⟨30, 30⟩ := by decide

/-- Claim C1 (counterexample): at the left-overlap input pinned by the test
"truncates annotation that overlaps left side of selection" (range `15..35`,
edit `30..50` replaced by four characters) the claimed result end
`editStart + insertedLength = 34` is wrong: the engine truncates the end to
`editStart = 30`. -/
theorem c1_left_overlap_counterexample :
    ((15 : Int) < 30 ∧ (35 : Int) > 30 ∧ (35 : Int) ≤ 30 + 20) ∧
      applyInsertDeleteToRange ⟨15, 35⟩ 30 20 4 ≠ ⟨15, 34⟩ := by
  decide

/-- Claim C1 (amended): a range overlapping the left edge of the edit
(`r.start < editStart < r.stop ≤ editEnd`) keeps its start and has its end
truncated to `editStart` (not `editStart + insertedLength`). -/
theorem c1_left_overlap_truncates_to_editStart (r : Range) (editStart removed inserted : Int)
    (h1 : r.start < editStart) (h2 : editStart < r.stop)
    (h3 : r.stop ≤ editStart + removed) :
    applyInsertDeleteToRange r editStart removed inserted = ⟨r.start, editStart⟩ := by
  obtain ⟨s, t⟩ := r
  simp only [applyInsertDeleteToRange]
  dsimp only at *
  split_ifs <;> simp only [Range.mk.injEq, true_and, and_true] <;> omega

/-- Claim C1 (witness): the amended theorem applied at the test fixture. -/
theorem c1_left_overlap_witness :
    applyInsertDeleteToRange ⟨15, 35⟩ 30 20 4 = ⟨15, 30⟩ :=
  c1_left_overlap_truncates_to_editStart ⟨15, 35⟩ 30 20 4 (by decide) (by decide) (by decide)

/-- Claim C2 (counterexample): at the contained input pinned by the test
"collapses annotation contained within selection to zero length" (range
`25..35`, edit `20..40` replaced by three characters) the claimed collapse
position `editStart + insertedLength = 23` is wrong: the engine collapses to
`editStart = 20`. -/
theorem c2_contained_counterexample :
    ((25 : Int) ≥ 20 ∧ (35 : Int) ≤ 20 + 20) ∧
      applyInsertDeleteToRange ⟨25, 35⟩ 20 20 3 ≠ ⟨23, 23⟩ := by
  decide

/-- Claim C2 (amended): a well-formed range contained in the replaced region
and starting strictly before `editEnd` collapses to a zero-length range at
`editStart` (not `editStart + insertedLength`).  (A cursor sitting exactly at
`editEnd` is instead handled by the entirely-after branch.) -/
theorem c2_contained_collapses_to_editStart (r : Range) (editStart removed inserted : Int)
    (h0 : r.start ≤ r.stop) (h1 : editStart ≤ r.start)
    (h2 : r.stop ≤ editStart + removed) (h3 : r.start < editStart + removed) :
    applyInsertDeleteToRange r editStart removed inserted = ⟨editStart, editStart⟩ := by
  obtain ⟨s, t⟩ := r
  simp only [applyInsertDeleteToRange]
  dsimp only at *
  split_ifs <;> simp only [Range.mk.injEq, true_and, and_true] <;> omega

/-- Claim C2 (witness): the amended theorem applied at the test fixture. -/
theorem c2_contained_witness :
    applyInsertDeleteToRange ⟨25, 35⟩ 20 20 3 = ⟨20, 20⟩ :=
  c2_contained_collapses_to_editStart ⟨25, 35⟩ 20 20 3 (by decide) (by decide)
    (by decide) (by decide)

/-- Claim C4: a pure insertion of `n > 0` characters exactly at the start of
a non-empty range leaves the start in place and shifts the end by `n` (the
feature absorbs the inserted text), while a pure insertion exactly at the end
of a well-formed range changes nothing. -/
theorem c4_boundary_insertion (r : Range) (n : Int) (_hn : 0 < n) :
    (r.start < r.stop → applyInsertDeleteToRange r r.start 0 n = ⟨r.start, r.stop + n⟩) ∧
      (r.start ≤ r.stop → applyInsertDeleteToRange r r.stop 0 n = r) := by
  obtain ⟨s, t⟩ := r
  constructor
  · intro hlt
    simp only [applyInsertDeleteToRange]
    dsimp only at *
    split_ifs <;> simp only [Range.mk.injEq, true_and, and_true] <;> omega
  · intro hle
    simp only [applyInsertDeleteToRange]
    dsimp only at *
    split_ifs <;> simp only [Range.mk.injEq, true_and, and_true] <;> omega

/-- Claim C4 (witness): the boundary-insertion theorem applied at the test
fixture `10..30` with three inserted characters (insert at 10 gives `10..33`,
insert at 30 leaves `10..30`). -/
theorem c4_boundary_insertion_witness :
    applyInsertDeleteToRange ⟨10, 30⟩ 10 0 3 = ⟨10, 33⟩ ∧
      applyInsertDeleteToRange ⟨10, 30⟩ 30 0 3 = ⟨10, 30⟩ :=
  ⟨(c4_boundary_insertion ⟨10, 30⟩ 3 (by decide)).1 (by decide),
   (c4_boundary_insertion ⟨10, 30⟩ 3 (by decide)).2 (by decide)⟩

/-- Insert a range into a list kept sorted by descending start position. -/
def insertDesc (r : Range) : List Range → List Range
  | [] => [r]
  | x :: xs => if x.start ≤ r.start then r :: x :: xs else x :: insertDesc r xs

/-- Sort ranges by descending start position (insertion sort).  Modelled from
the spec: multi-range deletes are processed "from highest position to
lowest", which `SequenceEditor.backend.test.js` pins by expecting the delete
for `8..10` to be emitted before the delete for `2..4`. -/
def sortDescByStart : List Range → List Range
  | [] => []
  | r :: rs => insertDesc r (sortDescByStart rs)

/-- Apply one deletion (of the selection range `d`) to every range of a span,
using the edit-adjustment primitive with `removedLength = d.stop - d.start`
and `insertedLength = 0`. -/
def deleteOneFromSpan (span : List Range) (d : Range) : List Range :=
  span.map (fun r => applyInsertDeleteToRange r d.start (d.stop - d.start) 0)

/-- Modelled from the spec: deleting a multi-range selection applies the
individual deletions from the highest-positioned range to the lowest, each
deletion adjusting every range of the span before the next lower deletion is
applied. -/
def multiRangeDelete (ds : List Range) (span : List Range) : List Range :=
  (sortDescByStart ds).foldl deleteOneFromSpan span

/-- Claim C5: the two deletions of the multi-range selection are processed
highest-first (the given order `[15,24], [2,7]` is already the sorted order,
and the reversed input sorts back to it), the outcome on the span
`1..5 + 10..20` is the reference fixture `1..2 + 5..10`, and the outcome is
the same whichever order the two selection ranges are supplied in. -/
theorem c5_multi_delete_high_to_low_order_independent :
    sortDescByStart [⟨2, 7⟩, ⟨15, 24⟩] = [⟨15, 24⟩, ⟨2, 7⟩] ∧
      multiRangeDelete [⟨15, 24⟩, ⟨2, 7⟩] [⟨1, 5⟩, ⟨10, 20⟩] = [⟨1, 2⟩, ⟨5, 10⟩] ∧
      multiRangeDelete [⟨2, 7⟩, ⟨15, 24⟩] [⟨1, 5⟩, ⟨10, 20⟩] =
        multiRangeDelete [⟨15, 24⟩, ⟨2, 7⟩] [⟨1, 5⟩, ⟨10, 20⟩] := by
  decide

/-- Claim C3 (counterexample): deleting the multi-range selection
`2..4 + 8..10` (processed highest range first) from the annotation span
`1..5 + 10..20` yields `1..3 + 6..16`, not the claimed `1..2 + 5..10`.  (The
fixture `1..2 + 5..10` belongs to the annotations test, whose deleted
selection is `2..7 + 15..24`; the selection `2..4 + 8..10` of the backend
test is only ever applied to a bare 16-base sequence.) -/
theorem c3_wrong_selection_counterexample :
    multiRangeDelete [⟨8, 10⟩, ⟨2, 4⟩] [⟨1, 5⟩, ⟨10, 20⟩] = [⟨1, 3⟩, ⟨6, 16⟩] ∧
      multiRangeDelete [⟨8, 10⟩, ⟨2, 4⟩] [⟨1, 5⟩, ⟨10, 20⟩] ≠ [⟨1, 2⟩, ⟨5, 10⟩] := by
  decide

/-- Claim C3 (amended): the multi-range deletion that turns the annotation
span `1..5 + 10..20` into the fixture `1..2 + 5..10` is the selection
`2..7 + 15..24` of the annotations test (processed from the highest range to
the lowest), not `2..4 + 8..10`. -/
theorem c3_multi_delete_annotation_fixture :
    multiRangeDelete [⟨15, 24⟩, ⟨2, 7⟩] [⟨1, 5⟩, ⟨10, 20⟩] = [⟨1, 2⟩, ⟨5, 10⟩] := by
  decide

/-- Direct embedding of `rangesOverlap(start1, end1, start2, end2)` from
`src/utils/layout.js`: exclusive-of-touching half-open interval overlap. -/
def rangesOverlap (start1 end1 start2 end2 : Int) : Bool :=
  start1 < end2 && end1 > start2

/-- Modelled from the spec: `Span.bounds` of `utils/dna.js` (not shipped),
the min-start/max-end envelope of the ranges of a span, absent for an empty
span. -/
def spanBounds : List Range → Option Range
  | [] => none
  | r :: rs => some (rs.foldl (fun acc x => ⟨min acc.start x.start, max acc.stop x.stop⟩) r)

/-- An annotation as in `src/utils/annotation.js`: metadata plus the list of
ranges of its span.  The `attributes` map is omitted. -/
structure Annot where
  id : String
  caption : String
  type : String
  spanRanges : List Range
deriving DecidableEq, Repr

/-- Direct embedding of `Annot.overlaps(start, end)` from
`src/utils/annotation.js`: false when the span has no bounds, otherwise the
half-open overlap test against the bounds envelope. -/
def Annot.overlaps (a : Annot) (start stop : Int) : Bool :=
  match spanBounds a.spanRanges with
  | none => false
  | some b => decide (b.start < stop) && decide (b.stop > start)

/-- Claim C8: `rangesOverlap` returns true exactly when
`a.start < b.end ∧ a.end > b.start`; touching intervals
(`a.end = b.start`) do not overlap; and an annotation with an empty span
overlaps nothing. -/
theorem c8_overlap_characterization :
    (∀ s1 e1 s2 e2 : Int, rangesOverlap s1 e1 s2 e2 = true ↔ (s1 < e2 ∧ e1 > s2)) ∧
      (∀ s1 e1 s2 e2 : Int, e1 = s2 → rangesOverlap s1 e1 s2 e2 = false) ∧
      (∀ a : Annot, a.spanRanges = [] → ∀ s e : Int, a.overlaps s e = false) := by
  refine ⟨fun s1 e1 s2 e2 => ?_, fun s1 e1 s2 e2 h => ?_, fun a h s e => ?_⟩
  · simp [rangesOverlap]
  · simp [rangesOverlap, h]
  · simp [Annot.overlaps, h, spanBounds]

/-- Claim C8 (witness): the characterization applied at concrete inputs:
`[0,5)` overlaps `[3,8)`, the touching pair `[0,5)`,`[5,9)` does not, and an
annotation with an empty span does not overlap `[0,10)`. -/
theorem c8_overlap_witness :
    rangesOverlap 0 5 3 8 = true ∧ rangesOverlap 0 5 5 9 = false ∧
      (Annot.mk "a1" "empty" "gene" []).overlaps 0 10 = false :=
  ⟨(c8_overlap_characterization.1 0 5 3 8).mpr (by decide),
   c8_overlap_characterization.2.1 0 5 5 9 rfl,
   c8_overlap_characterization.2.2 ⟨"a1", "empty", "gene", []⟩ rfl 0 10⟩

/-- Insert text into a character list at position `p` (the local optimistic
splice `seq.slice(0, p) + text + seq.slice(p)` of the editor, written
recursively). -/
def insertAt : List Char → Nat → List Char → List Char
  | xs, 0, t => t ++ xs
  | [], _ + 1, t => t
  | x :: xs, p + 1, t => x :: insertAt xs p t

/-- Remove `n` characters starting at index `a` from a character list (the
local optimistic splice `seq.slice(0, start) + seq.slice(end)`, written
recursively with `n = end - start`). -/
def deleteRange : List Char → Nat → Nat → List Char
  | xs, 0, n => xs.drop n
  | [], _ + 1, _ => []
  | x :: xs, a + 1, n => x :: deleteRange xs a n

/-- The recursive insertion splice agrees with the take/append/drop
characterization. -/
theorem insertAt_eq_take_append_drop (xs : List Char) (p : Nat) (t : List Char) :
    insertAt xs p t = xs.take p ++ t ++ xs.drop p := by
  induction xs generalizing p with
  | nil => cases p <;> simp [insertAt]
  | cons x xs ih =>
    cases p with
    | zero => simp [insertAt]
    | succ p => simp [insertAt, ih]

/-- The recursive deletion splice agrees with the take/drop
characterization. -/
theorem deleteRange_eq_take_append_drop (xs : List Char) (a n : Nat) :
    deleteRange xs a n = xs.take a ++ xs.drop (a + n) := by
  induction xs generalizing a with
  | nil => cases a <;> simp [deleteRange]
  | cons x xs ih =>
    cases a with
    | zero => simp [deleteRange]
    | succ a => simp [deleteRange, ih, Nat.succ_add]

/-- Number of non-zero gaps between consecutive ranges of a list (expected to
be sorted by start before calling). -/
def countBreaks : List Range → Nat
  | r1 :: r2 :: rest => (if r1.stop = r2.start then 0 else 1) + countBreaks (r2 :: rest)
  | _ => 0

/-- Insert a range into a list kept sorted by ascending start position. -/
def insertAsc (r : Range) : List Range → List Range
  | [] => [r]
  | x :: xs => if r.start ≤ x.start then r :: x :: xs else x :: insertAsc r xs

/-- Sort ranges by ascending start position (insertion sort). -/
def sortAscByStart : List Range → List Range
  | [] => []
  | r :: rs => insertAsc r (sortAscByStart rs)

/-- Stop position of the last range of a list (0 for an empty list). -/
def lastStop : List Range → Int
  | [] => 0
  | [r] => r.stop
  | _ :: rs => lastStop rs

/-- Modelled from the spec: the circular contiguity check of the selection
domain.  After sorting by start, the ranges must tile with no gaps; a single
gap is tolerated exactly when the set wraps the origin of a sequence of
length `L` (last range ends at `L` and first range starts at `0`), as pinned
by the cursor-after-deletion tests of `SequenceEditor.backend.test.js`. -/
def contiguousWrap (rs : List Range) (L : Int) : Bool :=
  match sortAscByStart rs with
  | [] => false
  | r :: rest =>
      decide (countBreaks (r :: rest) = 0) ||
        (decide (countBreaks (r :: rest) = 1) && decide (r.start = 0) &&
          decide (lastStop (r :: rest) = L))

/-- Lowest start position among a list of ranges (0 for an empty list). -/
def minStart (rs : List Range) : Int :=
  match sortAscByStart rs with
  | [] => 0
  | r :: _ => r.start

/-- A fire-and-forget notification to the external backend channel. -/
inductive BackendEvent where
  | insertEvt (position : Int) (text : List Char)
  | deleteEvt (start stop : Int)
deriving DecidableEq, Repr

/-- The coordinate-model state of the sequence editor: the local sequence,
the selection domain (`none` when nothing is selected), the annotation list,
and the log of notifications sent to the backend channel. -/
structure EditorState where
  sequence : List Char
  selection : Option (List Range)
  annotations : List Annot
  backendLog : List BackendEvent
deriving DecidableEq, Repr

/-- Adjust every range of the span of an annotation for one combined
insert/delete edit. -/
def adjustSpan (editStart removed inserted : Int) (a : Annot) : Annot :=
  { a with spanRanges := a.spanRanges.map (fun r => applyInsertDeleteToRange r editStart removed inserted) }

/-- Apply a whole multi-range deletion to the span of an annotation. -/
def multiDeleteSpan (rs : List Range) (a : Annot) : Annot :=
  { a with spanRanges := multiRangeDelete rs a.spanRanges }

/-- Modelled from the spec: the insert operation.  The text is spliced into
the local sequence immediately (optimistic UI), every annotation range and
selection range is adjusted by the edit-adjustment primitive with
`removedLength = 0`, and an insert notification is appended to the backend
log without waiting for an acknowledgement. -/
def doInsert (st : EditorState) (p : Nat) (t : List Char) : EditorState :=
  { sequence := insertAt st.sequence p t
    selection := st.selection.map
      (List.map (fun r => applyInsertDeleteToRange r (p : Int) 0 (t.length : Int)))
    annotations := st.annotations.map (adjustSpan (p : Int) 0 (t.length : Int))
    backendLog := st.backendLog ++ [BackendEvent.insertEvt (p : Int) t] }

/-- Modelled from the spec: the delete operation.  A missing or zero-length
selection is rejected before any state is touched.  Otherwise the selection
ranges are processed from the highest position to the lowest, each deletion
spliced out of the local sequence immediately and applied to every annotation
span, one delete notification per range is appended to the backend log
highest-first, and the selection becomes a cursor at the lowest boundary when
the deleted ranges were mutually adjacent (optionally wrapping the origin)
and `none` otherwise. -/
def doDelete (st : EditorState) : EditorState :=
  match st.selection with
  | none => st
  | some rs =>
      if totalLen rs ≤ 0 then st
      else
        let sorted := sortDescByStart rs
        { sequence := sorted.foldl
            (fun s r => deleteRange s r.start.toNat (r.stop - r.start).toNat) st.sequence
          selection :=
            if contiguousWrap rs (st.sequence.length : Int) then
              some [⟨minStart rs, minStart rs⟩]
            else none
          annotations := st.annotations.map (multiDeleteSpan rs)
          backendLog := st.backendLog ++
            sorted.map (fun r => BackendEvent.deleteEvt r.start r.stop) }

/-- Modelled from the spec: the replace operation, a delete followed by an
insert at the same position computed as one combined splice with
`removedLength` equal to the selection length.  The resulting selection is
forced to bracket the newly inserted text. -/
def doReplace (st : EditorState) (t : List Char) : EditorState :=
  match st.selection with
  | none => st
  | some rs =>
      if rs.isEmpty then st
      else
        let editStart := minStart rs
        let removed := totalLen rs
        { sequence := insertAt (deleteRange st.sequence editStart.toNat removed.toNat)
            editStart.toNat t
          selection := some [⟨editStart, editStart + (t.length : Int)⟩]
          annotations := st.annotations.map (adjustSpan editStart removed (t.length : Int))
          backendLog := st.backendLog ++
            [BackendEvent.deleteEvt editStart (editStart + removed),
             BackendEvent.insertEvt editStart t] }

/-- Claim C6: after a delete of a single range the selection is a cursor at
the start of that range; after a delete of several ranges the selection is a
cursor at the lowest boundary when the deleted ranges tile with no gaps
(including the circular wrap case), and `none` otherwise. -/
theorem c6_post_delete_cursor_rule (st : EditorState) (rs : List Range)
    (h : st.selection = some rs) (hlen : 0 < totalLen rs) :
    (∀ r : Range, rs = [r] → (doDelete st).selection = some [⟨r.start, r.start⟩]) ∧
      (contiguousWrap rs (st.sequence.length : Int) = true →
        (doDelete st).selection = some [⟨minStart rs, minStart rs⟩]) ∧
      (contiguousWrap rs (st.sequence.length : Int) = false →
        (doDelete st).selection = none) := by
  have hne : ¬ totalLen rs ≤ 0 := by omega
  refine ⟨fun r hr => ?_, fun hc => ?_, fun hc => ?_⟩
  · subst hr
    simp only [doDelete, h, if_neg hne]
    have hcw : contiguousWrap [r] (st.sequence.length : Int) = true := by
      simp [contiguousWrap, sortAscByStart, insertAsc, countBreaks]
    simp [hcw, minStart, sortAscByStart, insertAsc]
  · simp only [doDelete, h, if_neg hne]
    simp [hc]
  · simp only [doDelete, h, if_neg hne]
    simp [hc]

/-- Claim C6 (witness): the cursor rule applied to Scenario F, the deletion
of `5..10 + 15..18` (gap between 10 and 15) from a 20-base sequence, which
clears the selection. -/
theorem c6_post_delete_cursor_witness :
    (doDelete ⟨List.replicate 20 'A', some [⟨5, 10⟩, ⟨15, 18⟩], [], []⟩).selection = none :=
  (c6_post_delete_cursor_rule ⟨List.replicate 20 'A', some [⟨5, 10⟩, ⟨15, 18⟩], [], []⟩
      [⟨5, 10⟩, ⟨15, 18⟩] rfl (by decide)).2.2 (by decide)

/-- Claim C7: the selection resulting from a replace is always the single
range bracketing the newly inserted text,
`[editStart, editStart + insertedLength)`, whatever the shape of the prior
selection. -/
theorem c7_replace_selection_brackets_insertion (st : EditorState) (t : List Char)
    (rs : List Range) (h : st.selection = some rs) (hne : rs ≠ []) :
    (doReplace st t).selection = some [⟨minStart rs, minStart rs + (t.length : Int)⟩] := by
  match rs, hne with
  | r :: rest, _ =>
    simp [doReplace, h]

/-- Claim C7 (witness): the replace-selection rule applied to the test
fixture: selection `10..17` replaced by three characters leaves the
selection `10..13`. -/
theorem c7_replace_selection_witness :
    (doReplace ⟨List.replicate 100 'A', some [⟨10, 17⟩], [], []⟩ ['G', 'G', 'G']).selection =
      some [⟨10, 13⟩] := by
  rw [c7_replace_selection_brackets_insertion
      ⟨List.replicate 100 'A', some [⟨10, 17⟩], [], []⟩ ['G', 'G', 'G'] [⟨10, 17⟩] rfl
      (by decide)]
  decide

/-- Claim C9: a delete with no selection, or with a zero-length (cursor)
selection, is rejected before any state is touched: the whole editor state —
sequence, annotations, selection and backend log — is unchanged, and in
particular no delete notification is sent. -/
theorem c9_delete_rejected_without_selection (st : EditorState) :
    (st.selection = none → doDelete st = st) ∧
      (∀ rs : List Range, st.selection = some rs → totalLen rs = 0 → doDelete st = st) := by
  constructor
  · intro h
    simp [doDelete, h]
  · intro rs h h0
    simp only [doDelete, h]
    rw [if_pos (by omega)]

/-- Claim C9 (witness): the rejection rule applied at the cursor-selection
test fixture (cursor at position 3 on `ATCGATCG`). -/
theorem c9_delete_rejected_witness :
    doDelete ⟨['A', 'T', 'C', 'G', 'A', 'T', 'C', 'G'], some [⟨3, 3⟩], [], []⟩ =
      ⟨['A', 'T', 'C', 'G', 'A', 'T', 'C', 'G'], some [⟨3, 3⟩], [], []⟩ :=
  (c9_delete_rejected_without_selection
      ⟨['A', 'T', 'C', 'G', 'A', 'T', 'C', 'G'], some [⟨3, 3⟩], [], []⟩).2
    [⟨3, 3⟩] rfl (by decide)

/-- Claim C10: the optimistic local application of an edit: an insert at
position `p ≤ length` yields `seq.slice(0, p) + text + seq.slice(p)`, and a
delete of the selected range `[start, end)` with
`start ≤ end ≤ length` yields `seq.slice(0, start) + seq.slice(end)`, in
both cases with only the fire-and-forget backend notification appended (no
acknowledgement is involved). -/
theorem c10_optimistic_local_splice :
    (∀ (st : EditorState) (p : Nat) (t : List Char), p ≤ st.sequence.length →
        (doInsert st p t).sequence = st.sequence.take p ++ t ++ st.sequence.drop p) ∧
      (∀ (st : EditorState) (a b : Nat), a ≤ b → b ≤ st.sequence.length →
        st.selection = some [⟨(a : Int), (b : Int)⟩] →
        (doDelete st).sequence = st.sequence.take a ++ st.sequence.drop b) := by
  constructor
  · intro st p t _
    simp only [doInsert]
    exact insertAt_eq_take_append_drop st.sequence p t
  · intro st a b hab _ h
    by_cases heq : a = b
    · subst heq
      simp only [doDelete, h]
      rw [if_pos (by simp [totalLen, rangeLength])]
      rw [List.take_append_drop]
    · have hlt : a < b := by omega
      simp only [doDelete, h]
      rw [if_neg (by simp [totalLen, rangeLength]; omega)]
      simp only [sortDescByStart, insertDesc, List.foldl]
      have h1 : ((a : Int)).toNat = a := by omega
      have h2 : ((b : Int) - (a : Int)).toNat = b - a := by omega
      rw [h1, h2, deleteRange_eq_take_append_drop]
      congr 1
      congr 1
      omega

/-- Claim C10 (witness): the splice characterization applied at the backend
test fixtures: inserting `GGG` at position 4 of `ATCGATCG` gives
`ATCGGGGATCG`, and deleting the selection `2..5` from `ATCGATCG` gives
`ATTCG`. -/
theorem c10_optimistic_local_splice_witness :
    (doInsert ⟨['A', 'T', 'C', 'G', 'A', 'T', 'C', 'G'], none, [], []⟩ 4
        ['G', 'G', 'G']).sequence = ['A', 'T', 'C', 'G', 'G', 'G', 'G', 'A', 'T', 'C', 'G'] ∧
      (doDelete ⟨['A', 'T', 'C', 'G', 'A', 'T', 'C', 'G'], some [⟨2, 5⟩], [], []⟩).sequence =
        ['A', 'T', 'T', 'C', 'G'] := by
  constructor
  · rw [c10_optimistic_local_splice.1
        ⟨['A', 'T', 'C', 'G', 'A', 'T', 'C', 'G'], none, [], []⟩ 4 ['G', 'G', 'G']
        (by decide)]
    decide
  · rw [c10_optimistic_local_splice.2
        ⟨['A', 'T', 'C', 'G', 'A', 'T', 'C', 'G'], some [⟨2, 5⟩], [], []⟩ 2 5
        (by decide) (by decide) rfl]
    decide

end OpenGenePool
